import Mathlib

/-!
Shallow embedding of the article ingestion and deduplication pipeline of
`src/services/newsService.ts` (class `NewsService`), together with proofs of
the specification's claims about it.

Modelling conventions:
* JavaScript strings are modelled as Lean `String`s; for the content hash,
  which is defined over UTF-16 code units, the input is modelled as a
  `List Nat` of code units (for BMP text this agrees with `Char.toNat` of the
  Lean characters).
* JavaScript 32-bit integer coercion (`x | 0`, `x & x`, `<<`) is modelled by
  `toInt32`, reduction into `[-2^31, 2^31)`.
* The external backend (auth, document store, scraping, fetching) is modelled
  by explicit parameters: the current user is an `Option String` (its id), the
  document store is a `Store` value threaded through each operation, network
  fetch results are `Except`/oracle parameters, and impure id/timestamp
  generation (`Date.now()`, `Math.random()`) is an injected supply.
* Thrown JS exceptions are modelled with `Except`/`Option String` error
  components; a `try/catch` that logs and returns normally discards the error
  component.
-/

/-! ## 32-bit content hash (`generateContentHash`) -/

/-- Reduction of an integer to a signed 32-bit value, the effect of
JavaScript's `x & x` (ToInt32). -/
def toInt32 (n : Int) : Int := (n + 2 ^ 31) % 2 ^ 32 - 2 ^ 31

/-- One iteration of the loop body of `generateContentHash`:
`hash = ((hash << 5) - hash) + char; hash = hash & hash`.  JavaScript's
`h << 5` is `ToInt32 (ToInt32 h * 32)`; the subtraction and addition are exact
in doubles at these magnitudes; the final `& h` applies ToInt32. -/
def jsHashStep (h : Int) (c : Nat) : Int :=
  toInt32 (toInt32 (toInt32 h * 32) - h + (c : Int))

/-- `NewsService.generateContentHash`, over the UTF-16 code units of its
argument, rendered as a decimal string exactly as `Number.prototype.toString`
renders a 32-bit integer. -/
def generateContentHash (content : List Nat) : String :=
  toString (content.foldl jsHashStep 0)

/-- One step of the reference rolling hash described by the spec:
`hash = (hash*31 + charCode) mod 2^32`, reduced to a signed 32-bit integer at
each step. -/
def specHashStep (h : Int) (c : Nat) : Int := toInt32 (h * 31 + (c : Int))

/-- The spec's reference fingerprint algorithm, for comparison with
`generateContentHash`. -/
def specContentHash (content : List Nat) : String :=
  toString (content.foldl specHashStep 0)

/-- The deduplication fingerprint of a `(title, description)` pair: the hash of
the concatenation `title + description` (code-unit lists). -/
def fingerprint (title description : List Nat) : String :=
  generateContentHash (title ++ description)

/-- The spec's reference fingerprint of a `(title, description)` pair. -/
def specFingerprint (title description : List Nat) : String :=
  specContentHash (title ++ description)

/-! ## String helpers mirroring the JavaScript primitives used by the code -/

/-- Does `pat` occur as a contiguous sublist of the second argument? -/
def containsSeq (pat : List Char) : List Char → Bool
  | [] => pat.isEmpty
  | c :: cs => pat.isPrefixOf (c :: cs) || containsSeq pat cs

/-- JavaScript `s.includes(pat)`: substring containment. -/
def jsIncludes (s pat : String) : Bool := containsSeq pat.toList s.toList

/-- JavaScript truthiness of an optional string: `undefined` and `""` are
falsy. -/
def optTruthy : Option String → Bool
  | some s => s != ""
  | none => false

/-- JavaScript `s || d` for strings: `d` when `s` is falsy (empty). -/
def jsOrStr (s d : String) : String := if s == "" then d else s

/-- JavaScript `o || d` for an optional string: `d` when `o` is `undefined` or
empty. -/
def jsOrOpt (o : Option String) (d : String) : String :=
  match o with
  | some s => jsOrStr s d
  | none => d

/-- JavaScript `s.startsWith(pat)`. -/
def jsStartsWith (s pat : String) : Bool := pat.toList.isPrefixOf s.toList

/-- The whitespace characters JavaScript `trim` removes (the ASCII ones; the
further Unicode space characters never occur in the claims' inputs). -/
def isJsSpace (c : Char) : Bool :=
  c = ' ' || c = '\t' || c = '\n' || c = '\r' || c = '\x0b' || c = '\x0c'

/-- JavaScript `s.trim()`. -/
def jsTrim (s : String) : String :=
  String.mk (((s.toList.dropWhile isJsSpace).reverse.dropWhile isJsSpace).reverse)

/-- JavaScript `s.substring(0, n)`. -/
def jsSubstring (s : String) (n : Nat) : String := String.mk (s.toList.take n)

/-- JavaScript `s.toLowerCase()` (ASCII case mapping). -/
def jsToLower (s : String) : String := String.mk (s.toList.map Char.toLower)

/-- JavaScript `content.split('\n')`. -/
def jsSplitLines (content : String) : List String :=
  (content.toList.splitOnP fun c => c = '\n').map String.mk

/-- Core of JavaScript `line.replace(/<[^>]*>/g, '')`: every maximal segment
from a `'<'` to the next `'>'` (inclusive) is removed; a `'<'` with no later
`'>'` matches nothing and is kept.  The fuel argument (instantiated with the
list length, which every step strictly decreases) only makes the recursion
structural. -/
def stripFuel : Nat → List Char → List Char
  | 0, _ => []
  | _ + 1, [] => []
  | fuel + 1, c :: cs =>
    if c = '<' then
      match cs.dropWhile fun d => d ≠ '>' with
      | [] => c :: stripFuel fuel cs
      | _ :: rest => stripFuel fuel rest
    else c :: stripFuel fuel cs

/-- JavaScript `line.replace(/<[^>]*>/g, '')` on a string. -/
def stripTags (s : String) : String :=
  String.mk (stripFuel s.toList.length s.toList)

/-! ## RSS parser (`parseRSSContent`)

The source's `parseRSSContent(content, sourceUrl)` never uses its `sourceUrl`
parameter, so it is omitted.  Of the emitted candidate object, the fields that
are constants or impure fresh values (`id` from `Date.now`/`Math.random`,
`userId`/`sourceId`/`contentHash` empty, `content`/`imageUrl` empty,
`category` "general", flags false, `createdAt` now) are not modelled; the
varying fields are.  `publishedAt` is kept as the raw trimmed tag-stripped
date-line text (`Option`, `none` when absent): the impure
`new Date(...)`/wall-clock normalisation is abstracted, and no claim concerns
this field. -/

/-- A candidate article emitted by the parser. -/
structure ParsedArticle where
  title : String
  description : String
  url : String
  publishedAt : Option String
deriving DecidableEq

/-- The parser's in-progress candidate record (`currentArticle`), all fields
initially unset. -/
structure CurArticle where
  title : Option String := none
  description : Option String := none
  url : Option String := none
  publishedAt : Option String := none
deriving DecidableEq

/-- Title assignment: `if (title && title !== 'RSS' && title.length > 10)
currentArticle.title = title`. -/
def titleUpd (cur : CurArticle) (t : String) : CurArticle :=
  if t ≠ "" ∧ t ≠ "RSS" ∧ 10 < t.length then { cur with title := some t } else cur

/-- Description assignment: `if (description && description.length > 20)
currentArticle.description = description.substring(0, 300)`. -/
def descUpd (cur : CurArticle) (d : String) : CurArticle :=
  if d ≠ "" ∧ 20 < d.length then { cur with description := some (jsSubstring d 300) }
  else cur

/-- Link assignment: `if (url.startsWith('http')) currentArticle.url = url`. -/
def linkUpd (cur : CurArticle) (u : String) : CurArticle :=
  if jsStartsWith u "http" then { cur with url := some u } else cur

/-- Publish-date assignment (raw trimmed text kept, see module note). -/
def pubUpd (cur : CurArticle) (p : String) : CurArticle :=
  { cur with publishedAt := some p }

/-- The title branch of the per-line scan. -/
def titleStepIf (line : String) (cur : CurArticle) : CurArticle :=
  if jsIncludes line "<title>" && !jsIncludes line "<![CDATA[" then
    titleUpd cur (jsTrim (stripTags line))
  else cur

/-- The description branch of the per-line scan. -/
def descStepIf (line : String) (cur : CurArticle) : CurArticle :=
  if jsIncludes line "<description>" || jsIncludes line "<summary>" then
    descUpd cur (jsTrim (stripTags line))
  else cur

/-- The link branch of the per-line scan. -/
def linkStepIf (line : String) (cur : CurArticle) : CurArticle :=
  if jsIncludes line "<link>" && !jsIncludes line "</link>" then
    linkUpd cur (jsTrim (stripTags line))
  else cur

/-- The publish-date branch of the per-line scan. -/
def pubStepIf (line : String) (cur : CurArticle) : CurArticle :=
  if jsIncludes line "<pubDate>" || jsIncludes line "<published>" then
    pubUpd cur (jsTrim (stripTags line))
  else cur

/-- The four field-extraction branches of the loop body, in source order. -/
def lineStep (line : String) (cur : CurArticle) : CurArticle :=
  pubStepIf line (linkStepIf line (descStepIf line (titleStepIf line cur)))

/-- Finalisation of the in-progress candidate when both title and url are
populated (`description: currentArticle.description || ''`). -/
def emitCandidate (cur : CurArticle) : ParsedArticle :=
  { title := cur.title.getD ""
    description := jsOrOpt cur.description ""
    url := cur.url.getD ""
    publishedAt := cur.publishedAt }

/-- One iteration of the parser's `for (const line of lines)` loop: field
extraction, then the bounded emission check
`if (currentArticle.title && currentArticle.url && articles.length < 20)`. -/
def processLine (st : List ParsedArticle × CurArticle) (line : String) :
    List ParsedArticle × CurArticle :=
  if optTruthy (lineStep line st.2).title && optTruthy (lineStep line st.2).url
      && decide (st.1.length < 20) then
    (st.1 ++ [emitCandidate (lineStep line st.2)], ({} : CurArticle))
  else (st.1, lineStep line st.2)

/-- `NewsService.parseRSSContent`: split on newlines, single forward scan. -/
def parseRSSContent (content : String) : List ParsedArticle :=
  ((jsSplitLines content).foldl processLine ([], ({} : CurArticle))).1

/-! ## Document store model

Records are modelled with the exact fields the service reads and writes;
boolean flags are persisted as the strings `"0"`/`"1"` as in the source.  The
store is the pair of the two collections; `list` calls with a `where` clause
become filters (the `orderBy`/sort of reads is abstracted away — no claim
depends on result order — and `limit` becomes `List.take`). -/

/-- A persisted row of the `newsSources` collection. -/
structure SourceRec where
  id : String
  userId : String
  name : String
  url : String
  rssUrl : Option String
  category : String
  isActive : String
  createdAt : String
  updatedAt : String
deriving DecidableEq

/-- A persisted row of the `articles` collection. -/
structure ArticleRec where
  id : String
  userId : String
  sourceId : String
  title : String
  description : String
  content : String
  url : String
  imageUrl : String
  publishedAt : String
  category : String
  isBookmarked : String
  isRead : String
  contentHash : String
  createdAt : String
deriving DecidableEq

/-- The document store visible to the service. -/
structure Store where
  sources : List SourceRec
  articles : List ArticleRec
deriving DecidableEq

/-- `blink.db.newsSources.list({where: {id, userId}})`. -/
def listSourcesByIdUser (st : Store) (sid uid : String) : List SourceRec :=
  st.sources.filter (fun s => s.id == sid && s.userId == uid)

/-- `blink.db.articles.list({where: {userId, contentHash}})`. -/
def listArticlesByHash (st : Store) (uid h : String) : List ArticleRec :=
  st.articles.filter (fun a => a.userId == uid && a.contentHash == h)

/-- `blink.db.articles.list({where: {id, userId}})`. -/
def listArticlesByIdUser (st : Store) (aid uid : String) : List ArticleRec :=
  st.articles.filter (fun a => a.id == aid && a.userId == uid)

/-- The patch object passed to `blink.db.articles.update`; the service only
ever patches the two flag fields, an absent field leaves the row's field
unchanged. -/
structure ArticlePatch where
  isBookmarked : Option String := none
  isRead : Option String := none

/-- Application of a patch to a row. -/
def applyPatch (p : ArticlePatch) (a : ArticleRec) : ArticleRec :=
  { a with
    isBookmarked := p.isBookmarked.getD a.isBookmarked
    isRead := p.isRead.getD a.isRead }

/-- `blink.db.articles.update(articleId, patch)`: updates the row(s) with the
given primary key, regardless of owner. -/
def dbUpdateArticle (st : Store) (aid : String) (p : ArticlePatch) : Store :=
  { st with articles := st.articles.map (fun a => if a.id == aid then applyPatch p a else a) }

/-- `blink.db.articles.create(record)`. -/
def dbCreateArticle (st : Store) (a : ArticleRec) : Store :=
  { st with articles := st.articles ++ [a] }

/-- Digit-string parse helper for `jsNumberPos`. -/
def digitsToNat? (l : List Char) : Option Nat :=
  if l ≠ [] ∧ l.all fun c => c.isDigit then
    some (l.foldl (fun n c => n * 10 + (c.toNat - 48)) 0)
  else none

/-- JavaScript `Number(s) > 0` as used on the string-encoded flags; modelled
for the non-negative integer literals the service stores (`"0"`/`"1"`); any
non-numeric string is `NaN`, and `NaN > 0` is false. -/
def jsNumberPos (s : String) : Bool :=
  match digitsToNat? s.toList with
  | some n => decide (0 < n)
  | none => false

/-! ## Service operations

The external collaborators are injected: `user` is
`blink.auth.me()`'s result (its id, `none` when unauthenticated);
`fetchResult` is the outcome of `blink.data.extractFromUrl` on the source's
feed URL; `freshId`/`now` supply the impure id and timestamp generation;
`createFail k` says whether the k-th `blink.db.articles.create` of the call
throws. -/

/-- The fingerprint the ingestion loop computes for a candidate:
`generateContentHash(article.title + article.description)` (code points of
the Lean string standing for the JS string's code units). -/
def candidateHash (a : ParsedArticle) : String :=
  generateContentHash ((a.title ++ a.description).toList.map Char.toNat)

/-- The article row persisted for a new candidate. -/
def mkArticleRec (uid srcId category aid now : String) (a : ParsedArticle) :
    ArticleRec :=
  { id := aid
    userId := uid
    sourceId := srcId
    title := a.title
    description := jsOrStr a.description ""
    content := ""
    url := a.url
    imageUrl := ""
    publishedAt := jsOrOpt a.publishedAt now
    category := category
    isBookmarked := "0"
    isRead := "0"
    contentHash := candidateHash a
    createdAt := now }

/-- The per-candidate loop of `refreshSourceArticles`: compute the
fingerprint, check the store for it (scoped by user), create the row when
absent.  A create failure propagates (second component) and aborts the rest
of the batch, leaving earlier writes in place; `k` counts creates for the id
supply. -/
def ingestLoop (uid srcId category : String) (freshId : Nat → String)
    (now : String) (createFail : Nat → Bool) :
    List ParsedArticle → Nat → Store → Store × Option String
  | [], _, st => (st, none)
  | a :: rest, k, st =>
    if (listArticlesByHash st uid (candidateHash a)).isEmpty then
      if createFail k then (st, some "create failed")
      else
        ingestLoop uid srcId category freshId now createFail rest (k + 1)
          (dbCreateArticle st (mkArticleRec uid srcId category (freshId k) now a))
    else ingestLoop uid srcId category freshId now createFail rest k st

/-- `NewsService.fetchRSSFeed`: fetch the feed content and parse it; its own
`try/catch` turns any fetch error into the empty candidate list. -/
def fetchRSSFeed (fetchResult : Except String String) : List ParsedArticle :=
  match fetchResult with
  | Except.error _ => []
  | Except.ok content => parseRSSContent content

/-- Body of `NewsService.refreshSourceArticles` up to (but excluding) the
top-level catch: the final `Option String` is the uncaught exception, if
any. -/
def refreshInner (user : Option String) (sourceId : String)
    (fetchResult : Except String String) (freshId : Nat → String)
    (now : String) (createFail : Nat → Bool) (st : Store) :
    Store × Option String :=
  match user with
  | none => (st, none)
  | some uid =>
    match listSourcesByIdUser st sourceId uid with
    | [] => (st, none)
    | source :: _ =>
      if optTruthy source.rssUrl then
        ingestLoop uid source.id source.category freshId now createFail
          (fetchRSSFeed fetchResult) 0 st
      else (st, none)

/-- `NewsService.refreshSourceArticles`: the top-level catch logs any error
and returns normally, so the caller observes only the resulting store. -/
def refreshSourceArticles (user : Option String) (sourceId : String)
    (fetchResult : Except String String) (freshId : Nat → String)
    (now : String) (createFail : Nat → Bool) (st : Store) : Store :=
  (refreshInner user sourceId fetchResult freshId now createFail st).1

/-- What `refreshSourceArticles` presents to its caller: a normal return
(`Except.ok`) carrying the store, whatever `refreshInner` did. -/
def refreshTop (user : Option String) (sourceId : String)
    (fetchResult : Except String String) (freshId : Nat → String)
    (now : String) (createFail : Nat → Bool) (st : Store) :
    Except String Store :=
  match refreshInner user sourceId fetchResult freshId now createFail st with
  | (st', none) => Except.ok st'
  | (st', some _) => Except.ok st'

/-- The source row persisted by `addNewsSource`. -/
def mkSourceRec (sid uid name url rssUrl category now : String) : SourceRec :=
  { id := sid
    userId := uid
    name := name
    url := url
    rssUrl := some rssUrl
    category := category
    isActive := "1"
    createdAt := now
    updatedAt := now }

/-- `NewsService.addNewsSource`.  `discovered` is the result of the
`discoverRSSFeed` network interaction; `sid` the impure generated source id.
Its catch clause logs and rethrows, so errors reach the caller; the store
component records the writes performed before any throw. -/
def addNewsSource (user : Option String) (name url category : String)
    (discovered : Option String) (sid now : String)
    (fetchResult : Except String String) (freshId : Nat → String)
    (createFail : Nat → Bool) (st : Store) :
    Store × Except String SourceRec :=
  match user with
  | none => (st, Except.error "User not authenticated")
  | some uid =>
    match discovered with
    | none => (st, Except.error "Could not find RSS feed for this website")
    | some rssUrl =>
      let src := mkSourceRec sid uid name url rssUrl category now
      let st1 : Store := { st with sources := st.sources ++ [src] }
      let st2 := refreshSourceArticles user sid fetchResult freshId now createFail st1
      (st2, Except.ok src)

/-- `NewsService.getUserSources` (the record mapping to the UI object and the
`orderBy` are abstracted, see the store model note). -/
def getUserSources (user : Option String) (st : Store) : List SourceRec :=
  match user with
  | none => []
  | some uid => st.sources.filter (fun s => s.userId == uid && s.isActive == "1")

/-- `NewsService.getUserArticles`: `where` carries the user id, plus the
category when the argument is truthy and not `"all"`; `limit` rows are
returned. -/
def getUserArticles (user : Option String) (category : Option String)
    (lim : Nat) (st : Store) : List ArticleRec :=
  match user with
  | none => []
  | some uid =>
    (st.articles.filter (fun a =>
      a.userId == uid &&
        (match category with
         | some c => if c ≠ "" ∧ c ≠ "all" then a.category == c else true
         | none => true))).take lim

/-- `NewsService.searchArticles`: fetch up to 100 of the user's articles, then
filter client-side by case-insensitive substring match on title or
description. -/
def searchArticles (user : Option String) (q : String) (st : Store) :
    List ArticleRec :=
  match user with
  | none => []
  | some uid =>
    ((st.articles.filter (fun a => a.userId == uid)).take 100).filter
      (fun a => jsIncludes (jsToLower a.title) (jsToLower q)
        || jsIncludes (jsToLower a.description) (jsToLower q))

/-- `NewsService.toggleBookmark`: read the article scoped by user; when found,
flip the flag via a patch carrying only `isBookmarked`. -/
def toggleBookmark (user : Option String) (articleId : String) (st : Store) :
    Store :=
  match user with
  | none => st
  | some uid =>
    match listArticlesByIdUser st articleId uid with
    | [] => st
    | article :: _ =>
      dbUpdateArticle st articleId
        { isBookmarked := some (if jsNumberPos article.isBookmarked then "0" else "1") }

/-- `NewsService.markAsRead`: updates by raw article id — note the absence of
any ownership check before the write. -/
def markAsRead (user : Option String) (articleId : String) (st : Store) :
    Store :=
  match user with
  | none => st
  | some _ => dbUpdateArticle st articleId { isRead := some "1" }

/-! ## Feed discoverer (`discoverRSSFeed`)

The scraped page is injected as the link list; URL resolution
(`new URL(href, base).toString()`) is abstracted as the injected total
function `resolve`; `fetchOk u` says whether `blink.data.extractFromUrl u`
succeeds (a `new URL` throw during probing lands in the same per-candidate
catch, so it is folded into `fetchOk`). -/

/-- A hyperlink returned by `blink.data.scrape`. -/
structure ScrapedLink where
  href : Option String
  text : Option String
deriving DecidableEq

/-- Optional-chained `o?.includes(pat)` with JS truthiness. -/
def optIncludes (o : Option String) (pat : String) : Bool :=
  match o with
  | some s => jsIncludes s pat
  | none => false

/-- The source's RSS-link predicate:
`link.href?.includes('rss') || link.href?.includes('feed') ||
link.href?.includes('atom') || link.text?.toLowerCase().includes('rss') ||
link.text?.toLowerCase().includes('feed')`. -/
def linkIsRss (l : ScrapedLink) : Bool :=
  optIncludes l.href "rss" || optIncludes l.href "feed"
    || optIncludes l.href "atom"
    || optIncludes (l.text.map jsToLower) "rss"
    || optIncludes (l.text.map jsToLower) "feed"

/-- The link predicate as the spec words it (for comparison): target or
visible text case-insensitively contains any of "rss", "feed", "atom". -/
def specLinkIsRss (l : ScrapedLink) : Bool :=
  (["rss", "feed", "atom"].any fun k => optIncludes (l.href.map jsToLower) k)
    || (["rss", "feed", "atom"].any fun k => optIncludes (l.text.map jsToLower) k)

/-- The fixed conventional feed paths, in source order. -/
def commonPaths : List String := ["/rss", "/feed", "/rss.xml", "/feed.xml", "/atom.xml"]

/-- The probing loop over `commonPaths`: first path whose resolved URL
fetches without error. -/
def probeCommonPaths (websiteUrl : String) (resolve : String → String → String)
    (fetchOk : String → Bool) : Option String :=
  (commonPaths.find? fun p => fetchOk (resolve p websiteUrl)).map
    fun p => resolve p websiteUrl

/-- `NewsService.discoverRSSFeed` given the scraped links of the site page. -/
def discoverRSSFeed (links : List ScrapedLink) (websiteUrl : String)
    (resolve : String → String → String) (fetchOk : String → Bool) :
    Option String :=
  match links.find? linkIsRss with
  | some l =>
    match l.href with
    | some h =>
      if h ≠ "" then some (resolve h websiteUrl)
      else probeCommonPaths websiteUrl resolve fetchOk
    | none => probeCommonPaths websiteUrl resolve fetchOk
  | none => probeCommonPaths websiteUrl resolve fetchOk

/-! ## Specification predicates -/

/-- A title that passed the parser's noise filter. -/
def goodTitle (t : String) : Prop := t ≠ "" ∧ t ≠ "RSS" ∧ 10 < t.length

/-- A url that passed the parser's `startsWith('http')` check. -/
def goodUrl (u : String) : Prop := jsStartsWith u "http" = true

/-- Every populated field of the in-progress candidate passed its filter. -/
def curInv (cur : CurArticle) : Prop :=
  (∀ t, cur.title = some t → goodTitle t) ∧ (∀ u, cur.url = some u → goodUrl u)

/-- A well-formed emitted candidate. -/
def artGood (a : ParsedArticle) : Prop := goodTitle a.title ∧ goodUrl a.url

/-- Invariant of the parser's loop state. -/
def stInv (st : List ParsedArticle × CurArticle) : Prop :=
  st.1.length ≤ 20 ∧ (∀ a ∈ st.1, artGood a) ∧ curInv st.2

/-- The dedup invariant: among the given user's persisted articles, no two
share a content fingerprint. -/
def noDupFingerprints (uid : String) (st : Store) : Prop :=
  st.articles.Pairwise fun a b =>
    a.userId = uid → b.userId = uid → a.contentHash ≠ b.contentHash

/-- Some article of the given user with the given fingerprint is persisted. -/
def hashPresent (uid h : String) (st : Store) : Prop :=
  ∃ x, x ∈ st.articles ∧ x.userId = uid ∧ x.contentHash = h

/-- How many of the user's persisted articles carry the given fingerprint. -/
def countHash (uid h : String) (st : Store) : Nat :=
  (st.articles.filter fun x => x.userId == uid && x.contentHash == h).length

/-! ## Concrete example inputs used by witnesses and counterexamples -/

/-- A two-line feed whose parse emits exactly one candidate (the link line has
no closing tag, so the url is populated). -/
def demoFeed : String := "<title>A Long Enough Title</title>\n<link>http://x.com/a"

/-- The candidate `parseRSSContent demoFeed` emits. -/
def demoCandidate : ParsedArticle :=
  { title := "A Long Enough Title"
    description := ""
    url := "http://x.com/a"
    publishedAt := none }

/-- A feed whose parse emits the same candidate twice. -/
def dupFeed : String :=
  "<title>A Long Enough Title</title>\n<link>http://x.com/a\n<title>A Long Enough Title</title>\n<link>http://x.com/a"

/-- A concrete source row owned by user "u1" with a resolved feed URL. -/
def demoSource : SourceRec :=
  { id := "s1"
    userId := "u1"
    name := "Demo"
    url := "http://site"
    rssUrl := some "http://site/rss"
    category := "general"
    isActive := "1"
    createdAt := "c"
    updatedAt := "u" }

/-- A store holding just `demoSource` and no articles. -/
def demoStore : Store := { sources := [demoSource], articles := [] }

/-- An article row owned by user "userB". -/
def foreignArticle : ArticleRec :=
  { id := "a1"
    userId := "userB"
    sourceId := "s1"
    title := "t"
    description := "d"
    content := ""
    url := "http://e"
    imageUrl := ""
    publishedAt := "p"
    category := "general"
    isBookmarked := "0"
    isRead := "0"
    contentHash := "7"
    createdAt := "c" }

/-- A store whose only article belongs to "userB". -/
def foreignStore : Store := { sources := [], articles := [foreignArticle] }

/-- An article row owned by user "u1", not bookmarked. -/
def ownArticle : ArticleRec :=
  { id := "a2"
    userId := "u1"
    sourceId := "s1"
    title := "t"
    description := "d"
    content := ""
    url := "http://e"
    imageUrl := ""
    publishedAt := "p"
    category := "general"
    isBookmarked := "0"
    isRead := "0"
    contentHash := "9"
    createdAt := "c" }

/-- A store whose only article is `ownArticle`. -/
def ownStore : Store := { sources := [], articles := [ownArticle] }

theorem jsHashStep_eq_specHashStep : jsHashStep = specHashStep := by
  funext h c
  unfold jsHashStep specHashStep toInt32
  omega

theorem generateContentHash_eq_spec (content : List Nat) :
    generateContentHash content = specContentHash content := by
  unfold generateContentHash specContentHash
  rw [jsHashStep_eq_specHashStep]

/-- Claim C2: for every pair of (code-unit lists of) strings, the fingerprint
computed by `generateContentHash` on `title + description` equals the
reference 32-bit rolling hash `hash = (hash*31 + charCode) mod 2^32` taken
left-to-right from 0 with signed 32-bit reduction at each step, rendered in
decimal; the function is deterministic, and the empty input hashes to "0". -/
theorem fingerprint_matches_reference_hash :
    (∀ title description : List Nat,
        fingerprint title description = specFingerprint title description)
    ∧ (∀ title description : List Nat,
        fingerprint title description = fingerprint title description)
    ∧ fingerprint [] [] = "0" := by
  refine ⟨fun t d => ?_, fun t d => rfl, rfl⟩
  unfold fingerprint specFingerprint
  exact generateContentHash_eq_spec (t ++ d)

/-! ## Parser lemmas -/

theorem curInv_titleUpd {cur : CurArticle} {t : String} (h : curInv cur) :
    curInv (titleUpd cur t) := by
  unfold titleUpd
  split_ifs with hg
  · exact ⟨fun t' ht' => by cases ht'; exact hg, h.2⟩
  · exact h

theorem curInv_descUpd {cur : CurArticle} {d : String} (h : curInv cur) :
    curInv (descUpd cur d) := by
  unfold descUpd
  split_ifs with hg
  · exact ⟨h.1, h.2⟩
  · exact h

theorem curInv_linkUpd {cur : CurArticle} {u : String} (h : curInv cur) :
    curInv (linkUpd cur u) := by
  unfold linkUpd
  split_ifs with hg
  · exact ⟨h.1, fun u' hu' => by cases hu'; exact hg⟩
  · exact h

theorem curInv_pubUpd {cur : CurArticle} {p : String} (h : curInv cur) :
    curInv (pubUpd cur p) := ⟨h.1, h.2⟩

theorem curInv_titleStepIf {cur : CurArticle} (line : String) (h : curInv cur) :
    curInv (titleStepIf line cur) := by
  unfold titleStepIf
  split
  · exact curInv_titleUpd h
  · exact h

theorem curInv_descStepIf {cur : CurArticle} (line : String) (h : curInv cur) :
    curInv (descStepIf line cur) := by
  unfold descStepIf
  split
  · exact curInv_descUpd h
  · exact h

theorem curInv_linkStepIf {cur : CurArticle} (line : String) (h : curInv cur) :
    curInv (linkStepIf line cur) := by
  unfold linkStepIf
  split
  · exact curInv_linkUpd h
  · exact h

theorem curInv_pubStepIf {cur : CurArticle} (line : String) (h : curInv cur) :
    curInv (pubStepIf line cur) := by
  unfold pubStepIf
  split
  · exact curInv_pubUpd h
  · exact h

theorem curInv_lineStep {cur : CurArticle} (line : String) (h : curInv cur) :
    curInv (lineStep line cur) :=
  curInv_pubStepIf line (curInv_linkStepIf line (curInv_descStepIf line (curInv_titleStepIf line h)))

theorem title_titleStepIf_bad {line : String} {cur : CurArticle}
    (hbad : jsTrim (stripTags line) = "RSS" ∨ (jsTrim (stripTags line)).length < 11) :
    (titleStepIf line cur).title = cur.title := by
  unfold titleStepIf titleUpd
  split
  · split_ifs with hg
    · exfalso
      rcases hbad with h1 | h1
      · exact hg.2.1 h1
      · omega
    · rfl
  · rfl

theorem title_descStepIf {line : String} {cur : CurArticle} :
    (descStepIf line cur).title = cur.title := by
  unfold descStepIf descUpd
  split
  · split_ifs <;> rfl
  · rfl

theorem title_linkStepIf {line : String} {cur : CurArticle} :
    (linkStepIf line cur).title = cur.title := by
  unfold linkStepIf linkUpd
  split
  · split_ifs <;> rfl
  · rfl

theorem title_pubStepIf {line : String} {cur : CurArticle} :
    (pubStepIf line cur).title = cur.title := by
  unfold pubStepIf pubUpd
  split <;> rfl

theorem title_lineStep_bad {line : String} {cur : CurArticle}
    (hbad : jsTrim (stripTags line) = "RSS" ∨ (jsTrim (stripTags line)).length < 11) :
    (lineStep line cur).title = cur.title := by
  unfold lineStep
  rw [title_pubStepIf, title_linkStepIf, title_descStepIf,
    title_titleStepIf_bad hbad]

theorem artGood_emitCandidate {cur : CurArticle} (h : curInv cur)
    (ht : optTruthy cur.title = true) (hu : optTruthy cur.url = true) :
    artGood (emitCandidate cur) := by
  unfold emitCandidate artGood
  cases hcur : cur.title with
  | none => rw [hcur] at ht; simp [optTruthy] at ht
  | some t =>
    cases hcu : cur.url with
    | none => rw [hcu] at hu; simp [optTruthy] at hu
    | some u =>
      refine ⟨?_, ?_⟩
      · simpa [hcur] using h.1 t hcur
      · simpa [hcu] using h.2 u hcu

theorem stInv_processLine {st : List ParsedArticle × CurArticle}
    (line : String) (h : stInv st) : stInv (processLine st line) := by
  obtain ⟨hlen, harts, hcur⟩ := h
  unfold processLine
  split
  · rename_i hcond
    simp only [Bool.and_eq_true, decide_eq_true_eq] at hcond
    obtain ⟨⟨ht, hu⟩, hlt⟩ := hcond
    refine ⟨?_, ?_, ?_⟩
    · simp only [List.length_append, List.length_singleton]
      omega
    · intro a ha
      rcases List.mem_append.1 ha with hmem | hmem
      · exact harts a hmem
      · have : a = emitCandidate (lineStep line st.2) := by
          simpa using hmem
        subst this
        exact artGood_emitCandidate (curInv_lineStep line hcur) ht hu
    · exact ⟨(fun t ht' => nomatch ht'), (fun u hu' => nomatch hu')⟩
  · exact ⟨hlen, harts, curInv_lineStep line hcur⟩

theorem stInv_foldl :
    ∀ (lines : List String) (st : List ParsedArticle × CurArticle),
      stInv st → stInv (lines.foldl processLine st) := by
  intro lines
  induction lines with
  | nil => intro st h; exact h
  | cons l ls ih => intro st h; exact ih _ (stInv_processLine l h)

theorem stInv_init : stInv ([], ({} : CurArticle)) := by
  exact ⟨(by simp), (by simp), (fun t ht => nomatch ht), (fun u hu => nomatch hu)⟩

theorem parseRSSContent_stInv (content : String) :
    (parseRSSContent content).length ≤ 20
      ∧ ∀ a ∈ parseRSSContent content, artGood a := by
  have h := stInv_foldl (jsSplitLines content) ([], ({} : CurArticle)) stInv_init
  exact ⟨h.1, h.2.1⟩

/-- Claim C3: for every input string, `parseRSSContent` returns at most 20
candidates, and every returned candidate has a non-empty title and a url
starting with "http". -/
theorem parseRSSContent_bounded (content : String) :
    (parseRSSContent content).length ≤ 20
      ∧ ∀ a ∈ parseRSSContent content,
          a.title ≠ "" ∧ jsStartsWith a.url "http" = true := by
  have h := parseRSSContent_stInv content
  exact ⟨h.1, fun a ha => ⟨(h.2 a ha).1.1, (h.2 a ha).2⟩⟩

/-- Witness for C3 on a concrete feed with one emitted candidate. -/
theorem parseRSSContent_bounded_witness :
    (parseRSSContent demoFeed).length ≤ 20
      ∧ (demoCandidate.title ≠ "" ∧ jsStartsWith demoCandidate.url "http" = true) := by
  have h := parseRSSContent_bounded demoFeed
  exact ⟨h.1, h.2 demoCandidate (by decide)⟩

/-- Claim C9: a line whose tag-stripped, trimmed text is exactly "RSS" or is
shorter than 11 characters never populates the in-progress candidate's title
(after such a line the title is unchanged, or reset by an emission), and
hence no emitted candidate has such a title. -/
theorem parser_noise_filter :
    (∀ (st : List ParsedArticle × CurArticle) (line : String),
        (jsTrim (stripTags line) = "RSS" ∨ (jsTrim (stripTags line)).length < 11) →
        (processLine st line).2.title = st.2.title
          ∨ (processLine st line).2.title = none)
    ∧ ∀ (content : String) (a : ParsedArticle), a ∈ parseRSSContent content →
        ¬(a.title = "RSS" ∨ a.title.length < 11) := by
  constructor
  · intro st line hbad
    unfold processLine
    split
    · exact Or.inr rfl
    · exact Or.inl (title_lineStep_bad hbad)
  · intro content a ha
    have h := (parseRSSContent_stInv content).2 a ha
    obtain ⟨h1, h2, h3⟩ := h.1
    intro hc
    rcases hc with hc | hc
    · exact h2 hc
    · omega

/-- Witness for C9: a literal "RSS" title line leaves the candidate's title
unpopulated, and the concrete emitted candidate of `demoFeed` has a good
title. -/
theorem parser_noise_filter_witness :
    ((processLine ([], ({} : CurArticle)) "<title>RSS</title>").2.title
        = (([], ({} : CurArticle)) : List ParsedArticle × CurArticle).2.title
      ∨ (processLine ([], ({} : CurArticle)) "<title>RSS</title>").2.title = none)
    ∧ ¬(demoCandidate.title = "RSS" ∨ demoCandidate.title.length < 11) :=
  ⟨parser_noise_filter.1 ([], ({} : CurArticle)) "<title>RSS</title>" (by decide),
    parser_noise_filter.2 demoFeed demoCandidate (by decide)⟩

/-- Counterexample to claim C8: parsing the single-line feed
`<title>Example Article Title</title><link>http://x.com/a</link>` yields no
candidate at all — in particular not one with the claimed title, url, and
empty description. -/
theorem parse_single_line_feed_cex :
    ¬((parseRSSContent
          "<title>Example Article Title</title><link>http://x.com/a</link>").map
        (fun a => (a.title, a.url, a.description))
      = [("Example Article Title", "http://x.com/a", "")]) := by decide

/-- Claim C8 as amended: parsing the feed consisting exactly of the line
`<title>Example Article Title</title><link>http://x.com/a</link>` yields no
candidates: the line contains a closing `</link>` tag, so the url check
`line.includes('<link>') && !line.includes('</link>')` rejects it and the
url is never populated (the title extraction would anyway capture the whole
tag-stripped line, not just the title element's text). -/
theorem parse_single_line_feed :
    parseRSSContent
      "<title>Example Article Title</title><link>http://x.com/a</link>" = [] := by
  decide

/-! ## Feed discoverer (claim C5) -/

/-- Counterexample to claim C5: a link whose visible text is "Atom" satisfies
the spec's case-insensitive {rss, feed, atom} predicate, but the code's scan
(case-sensitive on href, and never checking the text for "atom") misses it
and falls through to probing; with all probes failing, discovery returns
`none` instead of the resolved link. -/
theorem discoverRSSFeed_cex :
    specLinkIsRss ⟨some "/news", some "Atom"⟩ = true
      ∧ linkIsRss ⟨some "/news", some "Atom"⟩ = false
      ∧ discoverRSSFeed [⟨some "/news", some "Atom"⟩] "https://site.example"
          (fun p _ => p) (fun _ => false) = none := by
  exact ⟨by decide, by decide, by decide⟩

/-- Claim C5 as amended: the scan looks for the first link whose href
contains (case-sensitively) "rss", "feed" or "atom", or whose lower-cased
visible text contains "rss" or "feed" (the text is not checked for "atom");
a found link with a truthy href is returned resolved against the site URL;
otherwise the paths /rss, /feed, /rss.xml, /feed.xml, /atom.xml are probed in
exactly that order, the first whose content fetch succeeds is returned, and
`none` is returned only when all probes fail. -/
theorem discoverRSSFeed_spec (links : List ScrapedLink) (websiteUrl : String)
    (resolve : String → String → String) (fetchOk : String → Bool) :
    (∀ l h, links.find? linkIsRss = some l → l.href = some h → h ≠ "" →
        discoverRSSFeed links websiteUrl resolve fetchOk
          = some (resolve h websiteUrl))
    ∧ (∀ p, links.find? linkIsRss = none →
        (commonPaths.find? fun q => fetchOk (resolve q websiteUrl)) = some p →
        discoverRSSFeed links websiteUrl resolve fetchOk
          = some (resolve p websiteUrl))
    ∧ (links.find? linkIsRss = none →
        (commonPaths.find? fun q => fetchOk (resolve q websiteUrl)) = none →
        discoverRSSFeed links websiteUrl resolve fetchOk = none) := by
  refine ⟨?_, ?_, ?_⟩
  · intro l h hfind hhref hne
    unfold discoverRSSFeed
    rw [hfind]
    simp [hhref, hne]
  · intro p hfind hprobe
    unfold discoverRSSFeed probeCommonPaths
    rw [hfind, hprobe]
    rfl
  · intro hfind hprobe
    unfold discoverRSSFeed probeCommonPaths
    rw [hfind, hprobe]
    rfl

/-- Witness for the amended C5 on concrete inputs: a matching link is
returned resolved, and with no matching link the first succeeding probe path
is returned. -/
theorem discoverRSSFeed_spec_witness :
    discoverRSSFeed [⟨some "my/rss", some "x"⟩] "https://s"
        (fun p b => b ++ p) (fun _ => false) = some "https://smy/rss"
      ∧ discoverRSSFeed [] "https://s" (fun p b => b ++ p)
          (fun u => u == "https://s/feed") = some "https://s/feed"
      ∧ discoverRSSFeed [] "https://s" (fun p b => b ++ p)
          (fun _ => false) = none := by
  refine ⟨?_, ?_, ?_⟩
  · exact (discoverRSSFeed_spec [⟨some "my/rss", some "x"⟩] "https://s"
      (fun p b => b ++ p) (fun _ => false)).1 ⟨some "my/rss", some "x"⟩ "my/rss"
      (by decide) rfl (by decide)
  · exact (discoverRSSFeed_spec [] "https://s" (fun p b => b ++ p)
      (fun u => u == "https://s/feed")).2.1 "/feed" rfl (by decide)
  · exact (discoverRSSFeed_spec [] "https://s" (fun p b => b ++ p)
      (fun _ => false)).2.2 rfl (by decide)

/-! ## addNewsSource (claim C6) and refreshSourceArticles error handling
(claim C7) -/

/-- Claim C6: whenever feed discovery returns NotFound, `addNewsSource` fails
with the explicit "feed not found" error raised to the caller (its catch
rethrows), and the store is unchanged — in particular no Source record is
persisted. -/
theorem addNewsSource_no_feed (uid name url category sid now : String)
    (fetchResult : Except String String) (freshId : Nat → String)
    (createFail : Nat → Bool) (st : Store) :
    addNewsSource (some uid) name url category none sid now fetchResult
        freshId createFail st
      = (st, Except.error "Could not find RSS feed for this website") := rfl

theorem refreshInner_user_none (sourceId : String)
    (fetchResult : Except String String) (freshId : Nat → String)
    (now : String) (createFail : Nat → Bool) (st : Store) :
    refreshInner none sourceId fetchResult freshId now createFail st
      = (st, none) := rfl

/-- Claim C7: `refreshSourceArticles` never raises to its caller (the
top-level catch always yields a normal return for every behaviour of the
injected collaborators), and each of the three guard cases — unauthenticated
user, source id not found for that user, source without a truthy feed URL —
is a silent no-op leaving the store unchanged. -/
theorem refreshSourceArticles_total_and_noop (user : Option String)
    (sourceId : String) (fetchResult : Except String String)
    (freshId : Nat → String) (now : String) (createFail : Nat → Bool)
    (st : Store) :
    (∃ st', refreshTop user sourceId fetchResult freshId now createFail st
        = Except.ok st')
    ∧ (user = none →
        refreshSourceArticles user sourceId fetchResult freshId now createFail st = st)
    ∧ (∀ uid, user = some uid → listSourcesByIdUser st sourceId uid = [] →
        refreshSourceArticles user sourceId fetchResult freshId now createFail st = st)
    ∧ (∀ uid src tl, user = some uid →
        listSourcesByIdUser st sourceId uid = src :: tl →
        optTruthy src.rssUrl = false →
        refreshSourceArticles user sourceId fetchResult freshId now createFail st = st) := by
  refine ⟨?_, ?_, ?_, ?_⟩
  · unfold refreshTop
    rcases hinner : refreshInner user sourceId fetchResult freshId now createFail st
      with ⟨st', e⟩
    cases e with
    | none => exact ⟨st', rfl⟩
    | some msg => exact ⟨st', rfl⟩
  · intro hu
    subst hu
    rfl
  · intro uid hu hsrc
    subst hu
    unfold refreshSourceArticles refreshInner
    simp [hsrc]
  · intro uid src tl hu hsrc hrss
    subst hu
    unfold refreshSourceArticles refreshInner
    simp [hsrc, hrss]

/-- Witness for C7 at concrete inputs: an unauthenticated refresh returns
normally and leaves the empty store unchanged. -/
theorem refreshSourceArticles_total_and_noop_witness :
    refreshSourceArticles none "s1" (Except.ok "") (fun _ => "") "t"
        (fun _ => false) ⟨[], []⟩ = ⟨[], []⟩
      ∧ ∃ st', refreshTop none "s1" (Except.ok "") (fun _ => "") "t"
          (fun _ => false) ⟨[], []⟩ = Except.ok st' :=
  ⟨(refreshSourceArticles_total_and_noop none "s1" (Except.ok "") (fun _ => "")
      "t" (fun _ => false) ⟨[], []⟩).2.1 rfl,
    (refreshSourceArticles_total_and_noop none "s1" (Except.ok "") (fun _ => "")
      "t" (fun _ => false) ⟨[], []⟩).1⟩

/-! ## Ingestion loop lemmas (claim C1) -/

theorem ingestLoop_sources (uid srcId cat : String) (fid : Nat → String)
    (now : String) (cf : Nat → Bool) :
    ∀ (arts : List ParsedArticle) (k : Nat) (st : Store),
      ((ingestLoop uid srcId cat fid now cf arts k st).1).sources = st.sources := by
  intro arts
  induction arts with
  | nil => intro k st; rfl
  | cons a rest ih =>
    intro k st
    unfold ingestLoop
    split
    · split
      · rfl
      · rw [ih]
        rfl
    · exact ih k st

theorem ingestLoop_mono (uid srcId cat : String) (fid : Nat → String)
    (now : String) (cf : Nat → Bool) :
    ∀ (arts : List ParsedArticle) (k : Nat) (st : Store) (x : ArticleRec),
      x ∈ st.articles →
      x ∈ ((ingestLoop uid srcId cat fid now cf arts k st).1).articles := by
  intro arts
  induction arts with
  | nil => intro k st x hx; exact hx
  | cons a rest ih =>
    intro k st x hx
    unfold ingestLoop
    split
    · split
      · exact hx
      · exact ih _ _ x (List.mem_append_left _ hx)
    · exact ih _ _ x hx

theorem hashPresent_ingestLoop (uid srcId cat : String) (fid : Nat → String)
    (now : String) (cf : Nat → Bool) (uid' h : String)
    (arts : List ParsedArticle) (k : Nat) (st : Store)
    (hp : hashPresent uid' h st) :
    hashPresent uid' h ((ingestLoop uid srcId cat fid now cf arts k st).1) := by
  obtain ⟨x, hx, h1, h2⟩ := hp
  exact ⟨x, ingestLoop_mono uid srcId cat fid now cf arts k st x hx, h1, h2⟩

theorem listArticlesByHash_isEmpty_iff (st : Store) (uid h : String) :
    (listArticlesByHash st uid h).isEmpty = true ↔ ¬hashPresent uid h st := by
  unfold listArticlesByHash hashPresent
  rw [List.isEmpty_iff, List.filter_eq_nil_iff]
  constructor
  · rintro hall ⟨x, hx, h1, h2⟩
    exact hall x hx (by simp [h1, h2])
  · intro hnp x hx hpx
    simp only [Bool.and_eq_true, beq_iff_eq] at hpx
    exact hnp ⟨x, hx, hpx.1, hpx.2⟩

theorem ingestLoop_new_userId (uid srcId cat : String) (fid : Nat → String)
    (now : String) (cf : Nat → Bool) :
    ∀ (arts : List ParsedArticle) (k : Nat) (st : Store) (y : ArticleRec),
      y ∈ ((ingestLoop uid srcId cat fid now cf arts k st).1).articles →
      y ∈ st.articles ∨ y.userId = uid := by
  intro arts
  induction arts with
  | nil => intro k st y hy; exact Or.inl hy
  | cons a rest ih =>
    intro k st y hy
    unfold ingestLoop at hy
    split at hy
    · split at hy
      · exact Or.inl hy
      · rcases ih _ _ y hy with hmem | huid
        · rcases List.mem_append.1 hmem with hmem' | hmem'
          · exact Or.inl hmem'
          · right
            have : y = mkArticleRec uid srcId cat (fid k) now a := by simpa using hmem'
            rw [this]
            rfl
        · exact Or.inr huid
    · exact ih _ _ y hy

theorem ingestLoop_noDup (uid srcId cat : String) (fid : Nat → String)
    (now : String) (cf : Nat → Bool) (uid' : String) :
    ∀ (arts : List ParsedArticle) (k : Nat) (st : Store),
      noDupFingerprints uid' st →
      noDupFingerprints uid' ((ingestLoop uid srcId cat fid now cf arts k st).1) := by
  intro arts
  induction arts with
  | nil => intro k st hnd; exact hnd
  | cons a rest ih =>
    intro k st hnd
    unfold ingestLoop
    split
    · rename_i hemp
      split
      · exact hnd
      · apply ih
        have hnp := (listArticlesByHash_isEmpty_iff st uid (candidateHash a)).1 hemp
        unfold noDupFingerprints dbCreateArticle
        rw [List.pairwise_append]
        refine ⟨hnd, List.pairwise_singleton _ _, ?_⟩
        intro x hx r hr
        have hr' : r = mkArticleRec uid srcId cat (fid k) now a := by simpa using hr
        subst hr'
        intro hxu hru heq
        exact hnp ⟨x, hx, hxu.trans hru.symm, heq⟩
    · exact ih _ _ hnd

theorem ingestLoop_all_present (uid srcId cat : String) (fid : Nat → String)
    (now : String) (cf : Nat → Bool) (hcf : ∀ k, cf k = false) :
    ∀ (arts : List ParsedArticle) (k : Nat) (st : Store) (a : ParsedArticle),
      a ∈ arts →
      hashPresent uid (candidateHash a)
        ((ingestLoop uid srcId cat fid now cf arts k st).1) := by
  intro arts
  induction arts with
  | nil => intro k st a ha; cases ha
  | cons b rest ih =>
    intro k st a ha
    unfold ingestLoop
    split
    · rename_i hemp
      rw [hcf k, if_neg (by simp)]
      rcases List.mem_cons.1 ha with rfl | ha'
      · refine hashPresent_ingestLoop uid srcId cat fid now cf uid _ rest _ _
          ⟨mkArticleRec uid srcId cat (fid k) now a, ?_, rfl, rfl⟩
        simp [dbCreateArticle]
      · exact ih _ _ a ha'
    · rename_i hne
      rcases List.mem_cons.1 ha with rfl | ha'
      · have hp : hashPresent uid (candidateHash a) st := by
          by_contra hnp
          exact hne ((listArticlesByHash_isEmpty_iff st uid (candidateHash a)).2 hnp)
        exact hashPresent_ingestLoop uid srcId cat fid now cf uid _ rest _ _ hp
      · exact ih _ _ a ha'

theorem ingestLoop_noop (uid srcId cat : String) (fid : Nat → String)
    (now : String) (cf : Nat → Bool) :
    ∀ (arts : List ParsedArticle) (k : Nat) (st : Store),
      (∀ a ∈ arts, hashPresent uid (candidateHash a) st) →
      ingestLoop uid srcId cat fid now cf arts k st = (st, none) := by
  intro arts
  induction arts with
  | nil => intro k st hall; rfl
  | cons a rest ih =>
    intro k st hall
    unfold ingestLoop
    rw [if_neg]
    · exact ih k st fun b hb => hall b (List.mem_cons_of_mem _ hb)
    · intro hemp
      exact (listArticlesByHash_isEmpty_iff st uid (candidateHash a)).1 hemp
        (hall a (List.mem_cons_self _ _))

theorem countHash_eq_zero_iff (uid h : String) (st : Store) :
    countHash uid h st = 0 ↔ ¬hashPresent uid h st := by
  unfold countHash hashPresent
  rw [List.length_eq_zero, List.filter_eq_nil_iff]
  constructor
  · rintro hall ⟨x, hx, h1, h2⟩
    exact hall x hx (by simp [h1, h2])
  · intro hnp x hx hpx
    simp only [Bool.and_eq_true, beq_iff_eq] at hpx
    exact hnp ⟨x, hx, hpx.1, hpx.2⟩

theorem countHash_create_other (uid h : String) (st : Store) (r : ArticleRec)
    (hne : ¬(r.userId = uid ∧ r.contentHash = h)) :
    countHash uid h (dbCreateArticle st r) = countHash uid h st := by
  unfold countHash dbCreateArticle
  rw [List.filter_append]
  have : (r.userId == uid && r.contentHash == h) = false := by
    simp only [Bool.and_eq_true, beq_iff_eq, ← Bool.not_eq_true]
    intro hc
    exact hne hc
  simp [List.filter, this]

theorem countHash_create_same (uid h : String) (st : Store) (r : ArticleRec)
    (hu : r.userId = uid) (hh : r.contentHash = h) :
    countHash uid h (dbCreateArticle st r) = countHash uid h st + 1 := by
  unfold countHash dbCreateArticle
  rw [List.filter_append]
  have : (r.userId == uid && r.contentHash == h) = true := by simp [hu, hh]
  simp [List.filter, this]

theorem ingestLoop_count_present (uid srcId cat : String) (fid : Nat → String)
    (now : String) (cf : Nat → Bool) (h : String) :
    ∀ (arts : List ParsedArticle) (k : Nat) (st : Store),
      hashPresent uid h st →
      countHash uid h ((ingestLoop uid srcId cat fid now cf arts k st).1)
        = countHash uid h st := by
  intro arts
  induction arts with
  | nil => intro k st hp; rfl
  | cons a rest ih =>
    intro k st hp
    unfold ingestLoop
    split
    · rename_i hemp
      split
      · rfl
      · have hnp := (listArticlesByHash_isEmpty_iff st uid (candidateHash a)).1 hemp
        have hne : candidateHash a ≠ h := by
          intro he
          exact hnp (he ▸ hp)
        rw [ih _ _ ⟨?_, ?_, ?_, ?_⟩]
        · exact countHash_create_other uid h st _ fun hc => hne hc.2
        · exact hp.choose
        · exact List.mem_append_left _ hp.choose_spec.1
        · exact hp.choose_spec.2.1
        · exact hp.choose_spec.2.2
    · exact ih _ _ hp

theorem ingestLoop_first_dup (uid srcId cat : String) (fid : Nat → String)
    (now : String) (cf : Nat → Bool) (hcf : ∀ k, cf k = false)
    (a : ParsedArticle) (l2 : List ParsedArticle) :
    ∀ (l1 : List ParsedArticle) (k : Nat) (st : Store),
      ¬hashPresent uid (candidateHash a) st →
      (∀ x ∈ l1, candidateHash x ≠ candidateHash a) →
      countHash uid (candidateHash a)
          ((ingestLoop uid srcId cat fid now cf (l1 ++ a :: l2) k st).1)
        = countHash uid (candidateHash a) st + 1
      ∧ ∃ k0, mkArticleRec uid srcId cat (fid k0) now a
          ∈ ((ingestLoop uid srcId cat fid now cf (l1 ++ a :: l2) k st).1).articles := by
  intro l1
  induction l1 with
  | nil =>
    intro k st hnp hall
    rw [List.nil_append]
    unfold ingestLoop
    rw [if_pos ((listArticlesByHash_isEmpty_iff st uid (candidateHash a)).2 hnp),
      hcf k, if_neg (by simp)]
    have hpres : hashPresent uid (candidateHash a)
        (dbCreateArticle st (mkArticleRec uid srcId cat (fid k) now a)) := by
      refine ⟨mkArticleRec uid srcId cat (fid k) now a, ?_, rfl, rfl⟩
      simp [dbCreateArticle]
    constructor
    · rw [ingestLoop_count_present uid srcId cat fid now cf (candidateHash a) l2 _ _ hpres]
      exact countHash_create_same uid (candidateHash a) st _ rfl rfl
    · refine ⟨k, ingestLoop_mono uid srcId cat fid now cf l2 _ _ _ ?_⟩
      simp [dbCreateArticle]
  | cons x l1' ih =>
    intro k st hnp hall
    have hxh : candidateHash x ≠ candidateHash a := hall x (List.mem_cons_self _ _)
    rw [List.cons_append]
    unfold ingestLoop
    split
    · rename_i hemp
      rw [hcf k, if_neg (by simp)]
      have hnp' : ¬hashPresent uid (candidateHash a)
          (dbCreateArticle st (mkArticleRec uid srcId cat (fid k) now x)) := by
        rintro ⟨y, hy, hyu, hyh⟩
        rcases List.mem_append.1 hy with hy' | hy'
        · exact hnp ⟨y, hy', hyu, hyh⟩
        · have : y = mkArticleRec uid srcId cat (fid k) now x := by simpa using hy'
          subst this
          exact hxh hyh
      obtain ⟨hc, hk⟩ := ih (k + 1) _ hnp'
        fun z hz => hall z (List.mem_cons_of_mem _ hz)
      refine ⟨?_, hk⟩
      rw [hc, countHash_create_other uid (candidateHash a) st _ fun hcon => hxh hcon.2]
    · exact ih k st hnp fun z hz => hall z (List.mem_cons_of_mem _ hz)

theorem refresh_sources_eq (user : Option String) (sid : String)
    (fetch : Except String String) (fid : Nat → String) (now : String)
    (cf : Nat → Bool) (st : Store) :
    (refreshSourceArticles user sid fetch fid now cf st).sources = st.sources := by
  cases user with
  | none => rfl
  | some uid =>
    unfold refreshSourceArticles refreshInner
    rcases hs : listSourcesByIdUser st sid uid with _ | ⟨src, tl⟩
    · simp [hs]
    · by_cases hrss : optTruthy src.rssUrl = true
      · simp only [hs, hrss, if_true]
        exact ingestLoop_sources uid src.id src.category fid now cf
          (fetchRSSFeed fetch) 0 st
      · simp [hs, hrss]

theorem refresh_found_eq (uid sid : String) (fetch : Except String String)
    (fid : Nat → String) (now : String) (cf : Nat → Bool) (st : Store)
    (src : SourceRec) (tl : List SourceRec)
    (hs : listSourcesByIdUser st sid uid = src :: tl)
    (hrss : optTruthy src.rssUrl = true) :
    refreshSourceArticles (some uid) sid fetch fid now cf st
      = (ingestLoop uid src.id src.category fid now cf (fetchRSSFeed fetch) 0 st).1 := by
  unfold refreshSourceArticles refreshInner
  simp [hs, hrss]

/-- Claim C1: (i) one ingestion run preserves the per-user "no two articles
share a content fingerprint" invariant for every user, for every behaviour of
the collaborators (persist failures included); (ii) with no persist failures,
a second run against the unchanged feed is a no-op — no new articles; (iii)
when the parse batch contains two candidates with identical
`(title, description)` — the earlier one, `a`, being the first candidate
carrying its fingerprint — and the fingerprint is not yet persisted, the run
persists exactly one article with that fingerprint, namely the one built from
`a`: the later duplicate is skipped. -/
theorem ingest_dedup_invariant :
    (∀ (uid' : String) (user : Option String) (sid : String)
        (fetch : Except String String) (fid : Nat → String) (now : String)
        (cf : Nat → Bool) (st : Store),
        noDupFingerprints uid' st →
        noDupFingerprints uid' (refreshSourceArticles user sid fetch fid now cf st))
    ∧ (∀ (uid sid : String) (fetch : Except String String)
        (fid1 fid2 : Nat → String) (now1 now2 : String) (st : Store),
        refreshSourceArticles (some uid) sid fetch fid2 now2 (fun _ => false)
            (refreshSourceArticles (some uid) sid fetch fid1 now1 (fun _ => false) st)
          = refreshSourceArticles (some uid) sid fetch fid1 now1 (fun _ => false) st)
    ∧ (∀ (uid sid : String) (fetch : Except String String) (fid : Nat → String)
        (now : String) (st : Store) (l1 l2 l3 : List ParsedArticle)
        (a b : ParsedArticle) (src : SourceRec) (tl : List SourceRec),
        b.title = a.title → b.description = a.description →
        listSourcesByIdUser st sid uid = src :: tl →
        optTruthy src.rssUrl = true →
        fetchRSSFeed fetch = l1 ++ a :: (l2 ++ b :: l3) →
        ¬hashPresent uid (candidateHash a) st →
        (∀ x ∈ l1, candidateHash x ≠ candidateHash a) →
        countHash uid (candidateHash a)
            (refreshSourceArticles (some uid) sid fetch fid now (fun _ => false) st)
          = 1
        ∧ ∃ k0, mkArticleRec uid src.id src.category (fid k0) now a
            ∈ (refreshSourceArticles (some uid) sid fetch fid now
                (fun _ => false) st).articles) := by
  refine ⟨?_, ?_, ?_⟩
  · intro uid' user sid fetch fid now cf st hnd
    cases user with
    | none => exact hnd
    | some uid =>
      unfold refreshSourceArticles refreshInner
      rcases hs : listSourcesByIdUser st sid uid with _ | ⟨src, tl⟩
      · simp only [hs]
        exact hnd
      · by_cases hrss : optTruthy src.rssUrl = true
        · simp only [hs, hrss, if_true]
          exact ingestLoop_noDup uid src.id src.category fid now cf uid'
            (fetchRSSFeed fetch) 0 st hnd
        · simp only [hs, hrss, if_false]
          exact hnd
  · intro uid sid fetch fid1 fid2 now1 now2 st
    rcases hs : listSourcesByIdUser st sid uid with _ | ⟨src, tl⟩
    · have h1 : refreshSourceArticles (some uid) sid fetch fid1 now1
          (fun _ => false) st = st := by
        unfold refreshSourceArticles refreshInner
        simp [hs]
      have h2 : refreshSourceArticles (some uid) sid fetch fid2 now2
          (fun _ => false) st = st := by
        unfold refreshSourceArticles refreshInner
        simp [hs]
      rw [h1, h2]
    · by_cases hrss : optTruthy src.rssUrl = true
      · have h1 := refresh_found_eq uid sid fetch fid1 now1 (fun _ => false) st
          src tl hs hrss
        have hs1 : listSourcesByIdUser
            (refreshSourceArticles (some uid) sid fetch fid1 now1
              (fun _ => false) st) sid uid = src :: tl := by
          unfold listSourcesByIdUser
          rw [refresh_sources_eq]
          exact hs
        have h2 := refresh_found_eq uid sid fetch fid2 now2 (fun _ => false)
          (refreshSourceArticles (some uid) sid fetch fid1 now1 (fun _ => false) st)
          src tl hs1 hrss
        rw [h2]
        have hall : ∀ c ∈ fetchRSSFeed fetch, hashPresent uid (candidateHash c)
            (refreshSourceArticles (some uid) sid fetch fid1 now1
              (fun _ => false) st) := by
          intro c hc
          rw [h1]
          exact ingestLoop_all_present uid src.id src.category fid1 now1
            (fun _ => false) (fun _ => rfl) (fetchRSSFeed fetch) 0 st c hc
        rw [ingestLoop_noop uid src.id src.category fid2 now2 (fun _ => false)
          (fetchRSSFeed fetch) 0 _ hall]
      · have h1 : refreshSourceArticles (some uid) sid fetch fid1 now1
            (fun _ => false) st = st := by
          unfold refreshSourceArticles refreshInner
          simp [hs, hrss]
        have h2 : refreshSourceArticles (some uid) sid fetch fid2 now2
            (fun _ => false) st = st := by
          unfold refreshSourceArticles refreshInner
          simp [hs, hrss]
        rw [h1, h2]
  · intro uid sid fetch fid now st l1 l2 l3 a b src tl htit hdesc hs hrss hfetch
      hnp hall
    rw [refresh_found_eq uid sid fetch fid now (fun _ => false) st src tl hs hrss,
      hfetch]
    obtain ⟨hc, hk⟩ := ingestLoop_first_dup uid src.id src.category fid now
      (fun _ => false) (fun _ => rfl) a (l2 ++ b :: l3) l1 0 st hnp hall
    refine ⟨?_, hk⟩
    rw [hc, (countHash_eq_zero_iff uid (candidateHash a) st).2 hnp]

/-- Witness for C1 at concrete inputs: the empty store's invariant is kept by
an unauthenticated run; a double run on an empty store is idempotent; and
ingesting `dupFeed` (the same candidate twice) into `demoStore` persists
exactly one article with that fingerprint, built from the first candidate. -/
theorem ingest_dedup_invariant_witness :
    noDupFingerprints "u1"
        (refreshSourceArticles none "s1" (Except.ok "") (fun _ => "") "t"
          (fun _ => false) ⟨[], []⟩)
      ∧ refreshSourceArticles (some "u1") "s1" (Except.ok "") (fun _ => "a") "t2"
            (fun _ => false)
            (refreshSourceArticles (some "u1") "s1" (Except.ok "") (fun _ => "a")
              "t1" (fun _ => false) ⟨[], []⟩)
          = refreshSourceArticles (some "u1") "s1" (Except.ok "") (fun _ => "a")
              "t1" (fun _ => false) ⟨[], []⟩
      ∧ countHash "u1" (candidateHash demoCandidate)
            (refreshSourceArticles (some "u1") "s1" (Except.ok dupFeed)
              (fun k : Nat => toString k) "t" (fun _ => false) demoStore) = 1
      ∧ ∃ k0 : Nat, mkArticleRec "u1" demoSource.id demoSource.category (toString k0)
            "t" demoCandidate
          ∈ (refreshSourceArticles (some "u1") "s1" (Except.ok dupFeed)
              (fun k : Nat => toString k) "t" (fun _ => false) demoStore).articles := by
  have h := ingest_dedup_invariant
  refine ⟨h.1 "u1" none "s1" (Except.ok "") (fun _ => "") "t" (fun _ => false)
    ⟨[], []⟩ List.Pairwise.nil, ?_, ?_⟩
  · exact h.2.1 "u1" "s1" (Except.ok "") (fun _ => "a") (fun _ => "a") "t1" "t2"
      ⟨[], []⟩
  · exact h.2.2 "u1" "s1" (Except.ok dupFeed) (fun k : Nat => toString k) "t"
      demoStore [] [] [] demoCandidate demoCandidate demoSource [] rfl rfl
      (by decide) rfl (by decide)
      (by rintro ⟨x, hx, -⟩; simp [demoStore] at hx) (by simp)

/-! ## User scoping (claim C4) -/

/-- Counterexample to claim C4: `markAsRead` updates by raw article id with no
ownership check, so user "userA" marking the id of userB's article writes
userB's record. -/
theorem markAsRead_cross_user_cex :
    foreignArticle.userId ≠ "userA"
      ∧ (markAsRead (some "userA") "a1" foreignStore).articles
          = [{ foreignArticle with isRead := "1" }]
      ∧ markAsRead (some "userA") "a1" foreignStore ≠ foreignStore := by
  refine ⟨by decide, by decide, by decide⟩

/-- Claim C4 as amended: reads in `getUserSources`, `getUserArticles` and
`searchArticles` return only the current user's records; `refreshSourceArticles`
leaves sources untouched and only adds articles owned by the current user;
`toggleBookmark` (for a store with distinct article ids) writes only records
owned by the current user and leaves every other user's record in place.
`markAsRead` is excluded: its update is keyed by raw article id with no
ownership check. -/
theorem user_scoped_operations :
    (∀ (uid : String) (st : Store) (s : SourceRec),
        s ∈ getUserSources (some uid) st → s.userId = uid)
    ∧ (∀ (uid : String) (category : Option String) (lim : Nat) (st : Store)
        (a : ArticleRec), a ∈ getUserArticles (some uid) category lim st →
        a.userId = uid)
    ∧ (∀ (uid q : String) (st : Store) (a : ArticleRec),
        a ∈ searchArticles (some uid) q st → a.userId = uid)
    ∧ (∀ (user : Option String) (sid : String) (fetch : Except String String)
        (fid : Nat → String) (now : String) (cf : Nat → Bool) (st : Store),
        (refreshSourceArticles user sid fetch fid now cf st).sources = st.sources)
    ∧ (∀ (uid sid : String) (fetch : Except String String) (fid : Nat → String)
        (now : String) (cf : Nat → Bool) (st : Store) (y : ArticleRec),
        y ∈ (refreshSourceArticles (some uid) sid fetch fid now cf st).articles →
        y ∈ st.articles ∨ y.userId = uid)
    ∧ (∀ (uid aid : String) (st : Store),
        (st.articles.map ArticleRec.id).Nodup →
        (∀ y ∈ (toggleBookmark (some uid) aid st).articles,
            y ∈ st.articles ∨ y.userId = uid)
          ∧ ∀ x ∈ st.articles, x.userId ≠ uid →
              x ∈ (toggleBookmark (some uid) aid st).articles) := by
  refine ⟨?_, ?_, ?_, ?_, ?_, ?_⟩
  · intro uid st s hs
    simp only [getUserSources] at hs
    have h := (List.mem_filter.1 hs).2
    simp only [Bool.and_eq_true, beq_iff_eq] at h
    exact h.1
  · intro uid category lim st a ha
    simp only [getUserArticles] at ha
    have ha' := List.take_subset _ _ ha
    have h := (List.mem_filter.1 ha').2
    simp only [Bool.and_eq_true, beq_iff_eq] at h
    exact h.1
  · intro uid q st a ha
    simp only [searchArticles] at ha
    have h1 := (List.mem_filter.1 ha).1
    have h2 := List.take_subset _ _ h1
    have h := (List.mem_filter.1 h2).2
    simpa using h
  · intro user sid fetch fid now cf st
    exact refresh_sources_eq user sid fetch fid now cf st
  · intro uid sid fetch fid now cf st y hy
    unfold refreshSourceArticles refreshInner at hy
    rcases hs : listSourcesByIdUser st sid uid with _ | ⟨src, tl⟩
    · simp only [hs] at hy
      exact Or.inl hy
    · simp only [hs] at hy
      by_cases hrss : optTruthy src.rssUrl = true
      · rw [if_pos hrss] at hy
        exact ingestLoop_new_userId uid src.id src.category fid now cf
          (fetchRSSFeed fetch) 0 st y hy
      · rw [if_neg hrss] at hy
        exact Or.inl hy
  · intro uid aid st hnd
    constructor
    · intro y hy
      unfold toggleBookmark at hy
      rcases hl : listArticlesByIdUser st aid uid with _ | ⟨a0, tl⟩
      · simp only [hl] at hy
        exact Or.inl hy
      · simp only [hl] at hy
        have ha0 : a0 ∈ listArticlesByIdUser st aid uid := by
          rw [hl]
          exact List.mem_cons_self _ _
        have ha0' := List.mem_filter.1 ha0
        have ha0p := ha0'.2
        simp only [Bool.and_eq_true, beq_iff_eq] at ha0p
        unfold dbUpdateArticle at hy
        obtain ⟨x, hx, hxy⟩ := List.mem_map.1 hy
        by_cases hid : (x.id == aid) = true
        · right
          have hxa0 : x = a0 := by
            refine List.inj_on_of_nodup_map hnd hx ha0'.1 ?_
            rw [ha0p.1]
            exact beq_iff_eq.1 hid
          rw [← hxy, if_pos hid]
          show (applyPatch _ x).userId = uid
          have : (applyPatch { isBookmarked := some (if jsNumberPos a0.isBookmarked then "0" else "1") } x).userId = x.userId := rfl
          rw [this, hxa0]
          exact ha0p.2
        · rw [← hxy, if_neg hid]
          exact Or.inl hx
    · intro x hx hxu
      unfold toggleBookmark
      rcases hl : listArticlesByIdUser st aid uid with _ | ⟨a0, tl⟩
      · simp only [hl]
        exact hx
      · simp only [hl]
        have ha0 : a0 ∈ listArticlesByIdUser st aid uid := by
          rw [hl]
          exact List.mem_cons_self _ _
        have ha0' := List.mem_filter.1 ha0
        have ha0p := ha0'.2
        simp only [Bool.and_eq_true, beq_iff_eq] at ha0p
        unfold dbUpdateArticle
        refine List.mem_map.2 ⟨x, hx, ?_⟩
        rw [if_neg]
        intro hid
        have hxa0 : x = a0 := by
          refine List.inj_on_of_nodup_map hnd hx ha0'.1 ?_
          rw [ha0p.1]
          exact beq_iff_eq.1 hid
        rw [hxa0] at hxu
        exact hxu ha0p.2

/-- Witness for the amended C4 at concrete inputs, exercising each conjunct on
`foreignStore` (whose single article belongs to "userB") with current user
"userA". -/
theorem user_scoped_operations_witness :
    (∀ s ∈ getUserSources (some "userA") foreignStore, s.userId = "userA")
      ∧ (refreshSourceArticles (some "userA") "s1" (Except.ok "") (fun _ => "")
          "t" (fun _ => false) foreignStore).sources = foreignStore.sources
      ∧ foreignArticle ∈
          (toggleBookmark (some "userA") "a1" foreignStore).articles := by
  refine ⟨?_, ?_, ?_⟩
  · intro s hs
    exact user_scoped_operations.1 "userA" foreignStore s hs
  · exact user_scoped_operations.2.2.2.1 (some "userA") "s1" (Except.ok "")
      (fun _ => "") "t" (fun _ => false) foreignStore
  · exact (user_scoped_operations.2.2.2.2.2 "userA" "a1" foreignStore
      (by decide)).2 foreignArticle (by decide) (by decide)

/-! ## toggleBookmark flip and involution (claim C10) -/

theorem filter_eq_single_of_unique {α : Type} (p : α → Bool) :
    ∀ (l : List α) (a : α), l.Nodup → a ∈ l → p a = true →
      (∀ x ∈ l, p x = true → x = a) → l.filter p = [a] := by
  intro l
  induction l with
  | nil => intro a _ ha; cases ha
  | cons x xs ih =>
    intro a hnd ha hpa huniq
    rcases List.mem_cons.1 ha with rfl | ha'
    · rw [List.filter_cons_of_pos hpa]
      have hnil : xs.filter p = [] := by
        rw [List.filter_eq_nil_iff]
        intro y hy hpy
        have : y = a := huniq y (List.mem_cons_of_mem _ hy) hpy
        subst this
        exact (List.nodup_cons.1 hnd).1 hy
      rw [hnil]
    · have hpx : p x = false := by
        by_contra hpx'
        have hpx'' : p x = true := by
          revert hpx'
          cases p x <;> simp
        have : x = a := huniq x (List.mem_cons_self _ _) hpx''
        subst this
        exact (List.nodup_cons.1 hnd).1 ha'
      rw [List.filter_cons_of_neg (by simp [hpx])]
      exact ih a (List.nodup_cons.1 hnd).2 ha' hpa
        fun z hz => huniq z (List.mem_cons_of_mem _ hz)

theorem toggleBookmark_found (uid aid : String) (st : Store) (a : ArticleRec)
    (hl : listArticlesByIdUser st aid uid = [a]) :
    toggleBookmark (some uid) aid st
      = dbUpdateArticle st aid
          { isBookmarked := some (if jsNumberPos a.isBookmarked then "0" else "1") } := by
  unfold toggleBookmark
  simp only [hl]

theorem listArticlesByIdUser_single (st : Store) (aid uid : String)
    (a : ArticleRec) (hnd : (st.articles.map ArticleRec.id).Nodup)
    (ha : a ∈ st.articles) (hid : a.id = aid) (hu : a.userId = uid) :
    listArticlesByIdUser st aid uid = [a] := by
  refine filter_eq_single_of_unique _ st.articles a (List.Nodup.of_map _ hnd)
    ha (by simp [hid, hu]) ?_
  intro x hx hpx
  simp only [Bool.and_eq_true, beq_iff_eq] at hpx
  exact List.inj_on_of_nodup_map hnd hx ha (by rw [hpx.1, hid])

/-- Claim C10: for an article `a` of the current user present in a store with
distinct article ids, one `toggleBookmark` call rewrites the articles so that
exactly the rows with that id get their `isBookmarked` flag flipped via a
patch carrying no other field (every other field and every other row
untouched), and toggling twice restores the store exactly. -/
theorem toggleBookmark_flip (uid aid : String) (st : Store) (a : ArticleRec)
    (hnd : (st.articles.map ArticleRec.id).Nodup)
    (ha : a ∈ st.articles) (hid : a.id = aid) (hu : a.userId = uid)
    (hflag : a.isBookmarked = "0" ∨ a.isBookmarked = "1") :
    (toggleBookmark (some uid) aid st).articles
        = st.articles.map (fun x =>
            if x.id = aid then
              { x with isBookmarked := if jsNumberPos a.isBookmarked then "0" else "1" }
            else x)
      ∧ toggleBookmark (some uid) aid (toggleBookmark (some uid) aid st) = st := by
  have hl := listArticlesByIdUser_single st aid uid a hnd ha hid hu
  have htog := toggleBookmark_found uid aid st a hl
  have hfun : (fun x : ArticleRec => if x.id == aid then applyPatch { isBookmarked := some (if jsNumberPos a.isBookmarked then "0" else "1") } x else x)
      = fun x : ArticleRec => if x.id = aid then { x with isBookmarked := if jsNumberPos a.isBookmarked then "0" else "1" } else x := by
    funext x
    by_cases h : x.id = aid
    · rw [if_pos (show (x.id == aid) = true by simp [h]), if_pos h]
      rfl
    · rw [if_neg h, if_neg (show ¬((x.id == aid) = true) by simp [h])]
  constructor
  · rw [htog]
    have hupd : (dbUpdateArticle st aid { isBookmarked := some (if jsNumberPos a.isBookmarked then "0" else "1") }).articles
        = st.articles.map fun x => if x.id == aid then applyPatch { isBookmarked := some (if jsNumberPos a.isBookmarked then "0" else "1") } x else x := rfl
    rw [hupd, hfun]
  · rw [htog]
    have hmem1 : ({ a with isBookmarked := if jsNumberPos a.isBookmarked then "0" else "1" } : ArticleRec)
        ∈ (dbUpdateArticle st aid { isBookmarked := some (if jsNumberPos a.isBookmarked then "0" else "1") }).articles := by
      refine List.mem_map.2 ⟨a, ha, ?_⟩
      rw [if_pos (by simp [hid])]
      rfl
    have hids1 : (dbUpdateArticle st aid { isBookmarked := some (if jsNumberPos a.isBookmarked then "0" else "1") }).articles.map ArticleRec.id
        = st.articles.map ArticleRec.id := by
      show (st.articles.map _).map ArticleRec.id = _
      rw [List.map_map]
      apply List.map_congr_left
      intro x hx
      by_cases h : (x.id == aid) = true
      · show ArticleRec.id (if x.id == aid then _ else x) = x.id
        rw [if_pos h]
        rfl
      · show ArticleRec.id (if x.id == aid then _ else x) = x.id
        rw [if_neg h]
    have hnd1 : ((dbUpdateArticle st aid { isBookmarked := some (if jsNumberPos a.isBookmarked then "0" else "1") }).articles.map ArticleRec.id).Nodup := by
      rw [hids1]
      exact hnd
    have hl1 := listArticlesByIdUser_single
      (dbUpdateArticle st aid { isBookmarked := some (if jsNumberPos a.isBookmarked then "0" else "1") })
      aid uid _ hnd1 hmem1 hid hu
    rw [toggleBookmark_found uid aid _ _ hl1]
    have hns2 : (if jsNumberPos ({ a with isBookmarked := if jsNumberPos a.isBookmarked then "0" else "1" } : ArticleRec).isBookmarked then "0" else "1") = a.isBookmarked := by
      show (if jsNumberPos (if jsNumberPos a.isBookmarked then "0" else "1") then "0" else "1") = a.isBookmarked
      rcases hflag with hf | hf <;> rw [hf] <;> rfl
    rw [hns2]
    have harts : (dbUpdateArticle (dbUpdateArticle st aid { isBookmarked := some (if jsNumberPos a.isBookmarked then "0" else "1") }) aid { isBookmarked := some a.isBookmarked }).articles = st.articles := by
      show (st.articles.map _).map _ = st.articles
      rw [List.map_map]
      have hpt : ∀ x ∈ st.articles,
          ((fun y : ArticleRec => if y.id == aid then applyPatch { isBookmarked := some a.isBookmarked } y else y)
            ∘ fun y : ArticleRec => if y.id == aid then applyPatch { isBookmarked := some (if jsNumberPos a.isBookmarked then "0" else "1") } y else y) x = x := by
        intro x hx
        rw [Function.comp_apply]
        by_cases h : (x.id == aid) = true
        · have hxa : x = a :=
            List.inj_on_of_nodup_map hnd hx ha (by rw [beq_iff_eq.1 h, hid])
          subst hxa
          rw [if_pos h, if_pos (show ((applyPatch { isBookmarked := some (if jsNumberPos x.isBookmarked then "0" else "1") } x).id == aid) = true from h)]
          rfl
        · have hfx : (if (x.id == aid) then applyPatch { isBookmarked := some (if jsNumberPos a.isBookmarked then "0" else "1") } x else x) = x := if_neg h
          rw [hfx, if_neg h]
      rw [List.map_congr_left hpt]
      exact List.map_id _
    have hsrcs : (dbUpdateArticle (dbUpdateArticle st aid { isBookmarked := some (if jsNumberPos a.isBookmarked then "0" else "1") }) aid { isBookmarked := some a.isBookmarked }).sources = st.sources := rfl
    have hext : ∀ (s1 s2 : Store), s1.sources = s2.sources →
        s1.articles = s2.articles → s1 = s2 := by
      intro s1 s2 h1 h2
      cases s1
      cases s2
      simp_all
    exact hext _ _ hsrcs harts

/-- Witness for C10 on `ownStore`: the single owned article's flag flips from
"0" to "1" and a double toggle restores the store. -/
theorem toggleBookmark_flip_witness :
    (toggleBookmark (some "u1") "a2" ownStore).articles
        = ownStore.articles.map (fun x =>
            if x.id = "a2" then
              { x with isBookmarked := if jsNumberPos ownArticle.isBookmarked then "0" else "1" }
            else x)
      ∧ toggleBookmark (some "u1") "a2"
          (toggleBookmark (some "u1") "a2" ownStore) = ownStore :=
  toggleBookmark_flip "u1" "a2" ownStore ownArticle (by decide) (by decide)
    rfl rfl (Or.inl rfl)
